import Mathlib

/-!
# Falltergeist audio mixer (`src/Audio/Mixer.cpp`)

A shallow embedding of `Falltergeist::Audio::Mixer`: the sound-effect cache
`_sfx`, the music / speech / movie streaming callbacks, the pause gate and the
music volume, followed by the properties established about them.

Conventions of the embedding:

* The mixer object, the one `Mix_HookMusic` registration, the heap of decoder
  objects it points into and a log of the calls made to collaborators are one
  value of type `Mixer`; every member function is a function on that value.
* Pointers are natural numbers; a null result of a lookup is `none`.
* A `double` is a value of `Dbl`: not-a-number, the two infinities, or a
  finite value.  Only comparisons and one scaling by 128 are made on it.
* The output buffer `uint8_t* stream` is a list of bytes; its `uint16_t` view
  is little-endian, as the device format `AUDIO_S16LSB` is.
-/

namespace Falltergeist
namespace Audio

/-! ## Doubles -/

/-- IEEE-754 `double` values as the mixer uses them: ordered comparisons
against the literals `0.0` and `1.0`. A comparison with `nan` on either side is
false. -/
inductive Dbl where
  | nan
  | negInf
  | posInf
  | fin (q : ℚ)
deriving DecidableEq

namespace Dbl

/-- The C++ `a < b` on doubles. -/
def lt : Dbl → Dbl → Bool
  | nan, _ => false
  | _, nan => false
  | negInf, negInf => false
  | negInf, _ => true
  | _, negInf => false
  | posInf, _ => false
  | fin _, posInf => true
  | fin a, fin b => decide (a < b)

/-- The C++ `a > b` on doubles. -/
def gt (a b : Dbl) : Bool := lt b a

/-- The C++ `a <= b` on doubles. -/
def le : Dbl → Dbl → Bool
  | nan, _ => false
  | _, nan => false
  | negInf, _ => true
  | _, negInf => false
  | _, posInf => true
  | posInf, fin _ => false
  | fin a, fin b => decide (a ≤ b)

/-- The literal `0.0`. -/
def zero : Dbl := fin 0

/-- The literal `1.0`. -/
def one : Dbl := fin 1

/-- Membership in the closed interval `[0, 1]`. -/
def inUnit (v : Dbl) : Prop := le zero v = true ∧ le v one = true

instance (v : Dbl) : Decidable (inUnit v) := by
  unfold inUnit; exact inferInstance

/-- The conversion `static_cast<int>(k * v)` for a finite `v`: the product is
truncated toward zero. The conversion of a non-finite value is undefined in
C++; `0` stands for it. -/
def scaleToInt (k : ℚ) : Dbl → Int
  | fin q => Int.tdiv (k * q).num (k * q).den
  | _ => 0

end Dbl

/-- Written after the specification (`clamp(v, 0.0, 1.0)`): the lower bound
when `v` is below it, the upper bound when `v` is above it, `v` itself
otherwise. -/
def clamp (v lo hi : Dbl) : Dbl :=
  if Dbl.lt v lo then lo else if Dbl.lt hi v then hi else v

/-! ## Collaborators -/

/-- A pointer to a decoder object. -/
abbrev Ptr := Nat

/-- Modelled from the spec: `Format::Acm::File` is not among the sources; the
specification gives it as the capability `SampleSource` with `rewind()`,
`samplesRemaining() -> count` and `readSamples(buffer, maxCount) -> countRead`.
`filename` is the canonical name the file reports, `data` its decoded 16-bit
samples and `pos` the read position. -/
structure AcmFile where
  filename : String
  data : List Nat
  pos : Nat
deriving DecidableEq

namespace AcmFile

/-- The call `samples()`: the number of samples of the whole file. -/
def samples (f : AcmFile) : Nat := f.data.length

/-- The call `samplesLeft()`: the number of samples not yet read. -/
def samplesLeft (f : AcmFile) : Nat := f.data.length - f.pos

/-- The call `rewind()`: the read position returns to the start. -/
def rewind (f : AcmFile) : AcmFile := { f with pos := 0 }

/-- The call `readSamples(buffer, count)`: up to `count` samples from the read
position on, and the file with its position advanced by as many as were read. -/
def readSamples (f : AcmFile) (count : Nat) : List Nat × AcmFile :=
  let got := (f.data.drop f.pos).take count
  (got, { f with pos := f.pos + got.length })

end AcmFile

/-- Modelled from the spec: `UI::MvePlayer` is not among the sources; the
specification gives the movie source as one that "directly provides pre-mixed
output bytes", possibly fewer than requested. `audio` is the byte stream it
still has to deliver from `pos` on. -/
structure MvePlayer where
  audio : List Nat
  pos : Nat
deriving DecidableEq

namespace MvePlayer

/-- The call `samplesLeft()`. -/
def samplesLeft (p : MvePlayer) : Nat := p.audio.length - p.pos

/-- The call `getAudio(stream, len)`: up to `len` bytes are copied to the front
of `stream` and the position advances past them. -/
def getAudio (p : MvePlayer) (stream : List Nat) (len : Nat) : List Nat × MvePlayer :=
  let got := (p.audio.drop p.pos).take (min len stream.length)
  (got ++ stream.drop got.length, { p with pos := p.pos + got.length })

end MvePlayer

/-- A `Mix_Chunk`: the converted sample buffer handed to `Mix_QuickLoad_RAW`. -/
structure Chunk where
  abuf : List Nat
deriving DecidableEq

/-- What `Mix_HookMusic` has registered: the member function bound to the
global `musicCallback` together with the `udata` pointer. The source always
assigns the two together. -/
inductive Target where
  | music (acm : Ptr)
  | speech (acm : Ptr)
  | movie (mve : Ptr)
deriving DecidableEq

/-- Calls made to collaborators, in the order they are made. -/
inductive Event where
  | hookMusic (target : Option Target)
  | rewind (acm : Ptr)
  | readSamples (acm : Ptr) (count : Nat)
  | memset (len : Nat)
  | mixAudioFormat (len : Nat) (volume : Int)
  | convertAudio (cnt : Nat)
  | quickLoadRAW (bytes : Nat)
  | freeChunk (chunk : Chunk)
  | playChannel (chunk : Chunk)
  | haltChannel
  | getAudio (mve : Ptr) (len : Nat)
  | debug (msg : String)
deriving DecidableEq

/-- What the mixer takes from outside `Mixer.cpp`.

* `musicPath` is `settings()->musicPath()`.
* `acmFileType` is `ResourceManager::acmFileType`: the decoder object of a
  path, or `none` for a null pointer.
* `sfxBegin` stands for the container type of `_sfx`, declared in `Mixer.h`,
  which is not among the sources. The entries of `_sfx` are listed by age,
  oldest insertion first; `sfxBegin` gives the place in that list of the entry
  `_sfx.begin()` designates (taken modulo the number of entries).
* `bufferFill` is what a cell of a fresh `Base::Buffer<uint16_t>` holds
  (`Base/Buffer.h` is not among the sources).
* `mixAudioFormat` is `SDL_MixAudioFormat(dst, src, format, len, volume)`. -/
structure Env where
  musicPath : String
  acmFileType : String → Option Ptr
  sfxBegin : List (String × Chunk) → Nat
  bufferFill : Nat → Nat
  mixAudioFormat : List Nat → List Nat → Nat → Nat → Int → List Nat

/-! ## The mixer -/

/-- The members of `Mixer` (`_sfx`, `_paused`, `_loop`, `_musicVolume`,
`_lastMusic`, `_format`), the `Mix_HookMusic` registration (`hook`), the
decoder objects reachable through pointers (`acm`, `mve`) and the log of
collaborator calls. -/
structure Mixer where
  _sfx : List (String × Chunk)
  _paused : Bool
  _loop : Bool
  _musicVolume : Dbl
  _lastMusic : String
  _format : Nat
  hook : Option Target
  acm : Ptr → AcmFile
  mve : Ptr → MvePlayer
  log : List Event

namespace Mixer

/-- Appends one collaborator call to the log. -/
def emit (m : Mixer) (e : Event) : Mixer := { m with log := m.log ++ [e] }

/-- The call `Mix_HookMusic(f, udata)`; `Mix_HookMusic(NULL, NULL)` is
`hookMusic none`. -/
def hookMusic (m : Mixer) (t : Option Target) : Mixer :=
  { m with hook := t, log := m.log ++ [Event.hookMusic t] }

/-- The call `p->rewind()` on the decoder object `p`. -/
def acmRewind (m : Mixer) (p : Ptr) : Mixer :=
  { m with acm := Function.update m.acm p (m.acm p).rewind,
           log := m.log ++ [Event.rewind p] }

/-- The call `p->readSamples(buffer, count)` on the decoder object `p`: the
samples read, and the mixer with the object advanced. -/
def acmReadSamples (m : Mixer) (p : Ptr) (count : Nat) : List Nat × Mixer :=
  let r := (m.acm p).readSamples count
  (r.1, { m with acm := Function.update m.acm p r.2,
                 log := m.log ++ [Event.readSamples p count] })

/-- The body of `stopMusic`. -/
def stopMusic (m : Mixer) : Mixer := m.hookMusic none

/-- The body of `stopSounds`. -/
def stopSounds (m : Mixer) : Mixer := m.emit Event.haltChannel

/-- The body of `pauseMusic`. -/
def pauseMusic (m : Mixer) : Mixer := { m with _paused := true }

/-- The body of `resumeMusic`. -/
def resumeMusic (m : Mixer) : Mixer := { m with _paused := false }

/-- The body of `musicVolume`. -/
def musicVolume (m : Mixer) : Dbl := m._musicVolume

/-- The body of `setMusicVolume`. -/
def setMusicVolume (m : Mixer) (volume : Dbl) : Mixer :=
  let volume := if Dbl.lt volume Dbl.zero then Dbl.zero
                else if Dbl.gt volume Dbl.one then Dbl.one
                else volume
  { m with _musicVolume := volume }

/-- The body of `lastMusic`. -/
def lastMusic (m : Mixer) : String := m._lastMusic

end Mixer

/-! ## Buffers and SDL primitives -/

/-- The call `SDL_memset(stream, v, len)` on a byte buffer. -/
def memset (stream : List Nat) (v len : Nat) : List Nat :=
  List.replicate (min len stream.length) v ++ stream.drop len

/-- The store `sstr[j] = v` through the `uint16_t*` view of a byte buffer:
the low byte goes to offset `2 * j`, the high byte to offset `2 * j + 1`. -/
def writeU16 (stream : List Nat) (j v : Nat) : List Nat :=
  (stream.set (2 * j) (v % 256)).set (2 * j + 1) (v / 256 % 256)

/-- The load `sstr[j]` through the `uint16_t*` view of a byte buffer. -/
def readU16 (stream : List Nat) (j : Nat) : Nat :=
  stream.getD (2 * j) 0 + 256 * stream.getD (2 * j + 1) 0

/-- A fresh `Base::Buffer<uint16_t> tmp(size)`. -/
def newBuffer (env : Env) (size : Nat) : List Nat :=
  (List.range size).map env.bufferFill

/-- The buffer `tmp` after `readSamples(tmp.data(), count)` has stored the
samples `got` at its front. -/
def fillBuffer (tmp got : List Nat) : List Nat :=
  got ++ tmp.drop got.length

/-- The conversion built by `SDL_BuildAudioCVT(&cvt, AUDIO_S16LSB, 1, 22050,
AUDIO_S16LSB, 2, 22050)` and run by `SDL_ConvertAudio`: every mono sample
becomes the two samples of a stereo frame. -/
def convertAudio (mono : List Nat) : List Nat :=
  mono.flatMap (fun s => [s, s])

/-! ## The container `_sfx` -/

/-- The call `_sfx.find(key)`: the chunk stored under `key`, `none` for
`_sfx.end()`. -/
def sfxFind (sfx : List (String × Chunk)) (key : String) : Option Chunk :=
  (sfx.find? (fun e => e.1 == key)).map (fun e => e.2)

/-- The place, among the entries listed by age, of `_sfx.begin()`. -/
def sfxBeginIdx (env : Env) (sfx : List (String × Chunk)) : Nat :=
  env.sfxBegin sfx % sfx.length

/-- The call `_sfx.erase(_sfx.begin())`. -/
def sfxEraseBegin (env : Env) (sfx : List (String × Chunk)) : List (String × Chunk) :=
  sfx.eraseIdx (sfxBeginIdx env sfx)

/-- The call `_sfx.insert(std::pair(key, chunk))`: a key already present keeps
its chunk, a new key becomes the youngest entry. -/
def sfxInsert (sfx : List (String × Chunk)) (key : String) (chunk : Chunk) :
    List (String × Chunk) :=
  if sfx.any (fun e => e.1 == key) then sfx else sfx ++ [(key, chunk)]

namespace Mixer

/-! ## Streaming callbacks -/

/-- Lines 109-113 of `_musicCallback`: fetch `len / 2` samples, clear the
output and mix the samples into it at the music volume. -/
def musicFetch (env : Env) (m : Mixer) (udata : Ptr) (stream : List Nat) (len : Nat) :
    Mixer × List Nat :=
  let tmp := newBuffer env (len / 2)
  let r := m.acmReadSamples udata (len / 2)
  let tmp := fillBuffer tmp r.1
  let m := r.2
  let stream := memset stream 0 len
  let volume := Dbl.scaleToInt 128 m._musicVolume
  let m := (m.emit (Event.memset len)).emit (Event.mixAudioFormat len volume)
  (m, env.mixAudioFormat stream tmp m._format len volume)

/-- The body of `_musicCallback(udata, stream, len)`: the mixer afterwards and
the content of `stream` afterwards. -/
def _musicCallback (env : Env) (m : Mixer) (udata : Ptr) (stream : List Nat) (len : Nat) :
    Mixer × List Nat :=
  if m._paused then (m, stream)
  else if (m.acm udata).samplesLeft ≤ 0 then
    if m._loop then musicFetch env (m.acmRewind udata) udata stream len
    else (m.hookMusic none, stream)
  else musicFetch env m udata stream len

/-- The loop of `_speechCallback`: for `i` from `0` below `n`, the sample
`tmp[i]` is stored at `sstr[i*2]` and at `sstr[i*2 + 1]`. -/
def speechLoop (tmp stream : List Nat) (n : Nat) : List Nat :=
  (List.range n).foldl
    (fun s i => writeU16 (writeU16 s (i * 2) (tmp.getD i 0)) (i * 2 + 1) (tmp.getD i 0))
    stream

/-- The body of `_speechCallback(udata, stream, len)`. -/
def _speechCallback (env : Env) (m : Mixer) (udata : Ptr) (stream : List Nat) (len : Nat) :
    Mixer × List Nat :=
  if m._paused then (m, stream)
  else if (m.acm udata).samplesLeft ≤ 0 then (m.hookMusic none, stream)
  else
    let tmp := newBuffer env (len / 2)
    let r := m.acmReadSamples udata (len / 4)
    let tmp := fillBuffer tmp r.1
    (r.2, speechLoop tmp stream (len / 4))

/-- The body of `_movieCallback(udata, stream, len)`. -/
def _movieCallback (m : Mixer) (udata : Ptr) (stream : List Nat) (len : Nat) :
    Mixer × List Nat :=
  if (m.mve udata).samplesLeft ≤ 0 then
    ((m.emit (Event.debug "buffer underrun?")).hookMusic none, stream)
  else
    let r := (m.mve udata).getAudio stream len
    ({ m with mve := Function.update m.mve udata r.2,
              log := m.log ++ [Event.getAudio udata len] }, r.1)

/-- The trampoline `myMusicPlayer(udata, stream, len)`: it forwards to the
member function bound to `musicCallback`. -/
def myMusicPlayer (env : Env) (m : Mixer) (t : Target) (stream : List Nat) (len : Nat) :
    Mixer × List Nat :=
  match t with
  | Target.music p => _musicCallback env m p stream len
  | Target.speech p => _speechCallback env m p stream len
  | Target.movie p => _movieCallback m p stream len

/-- One invocation of the registered hook by the audio device on an output
buffer `stream` of `len` bytes; nothing is called when no hook is registered. -/
def audioTick (env : Env) (m : Mixer) (stream : List Nat) (len : Nat) : Mixer × List Nat :=
  match m.hook with
  | none => (m, stream)
  | some t => myMusicPlayer env m t stream len

/-- Successive invocations of the registered hook, one for each buffer of
`streams`: the mixer afterwards and the buffers as they were left. -/
def audioTicks (env : Env) (m : Mixer) : List (List Nat) → Mixer × List (List Nat)
  | [] => (m, [])
  | stream :: rest =>
    let r := audioTick env m stream stream.length
    let rs := audioTicks env r.1 rest
    (rs.1, r.2 :: rs.2)

/-! ## Playback requests -/

/-- The body of `playACMMusic(filename, loop)`. -/
def playACMMusic (env : Env) (m : Mixer) (filename : String) (loop : Bool) : Mixer :=
  let m := m.hookMusic none
  match env.acmFileType (env.musicPath ++ filename) with
  | none => m
  | some acm =>
    let m := { m with _lastMusic := filename, _loop := loop }
    let m := m.acmRewind acm
    m.hookMusic (some (Target.music acm))

/-- The body of `playACMSpeech(filename)`. -/
def playACMSpeech (env : Env) (m : Mixer) (filename : String) : Mixer :=
  let m := m.hookMusic none
  match env.acmFileType ("sound/speech/" ++ filename) with
  | none => m
  | some acm =>
    let m := m.acmRewind acm
    m.hookMusic (some (Target.speech acm))

/-- The body of `playMovieMusic(mve)`. -/
def playMovieMusic (m : Mixer) (mve : Ptr) : Mixer :=
  m.hookMusic (some (Target.movie mve))

/-- Lines 193-213 of `playACMSound`, taken when no chunk was found: decode the
whole file, convert it to stereo, make a chunk, erase `_sfx.begin()` when
`_sfx.size() > 100`, and insert the chunk under the canonical name. The chunk
made is returned with the mixer. `Mix_QuickLoad_RAW` returns a chunk whenever
the device is open, which the constructor ensures. -/
def loadChunk (env : Env) (m : Mixer) (acm : Ptr) : Chunk × Mixer :=
  let name := (m.acm acm).filename
  let samples := (m.acm acm).samples
  let r := m.acmReadSamples acm samples
  let cnt := r.1.length * 2
  let m := r.2
  let m := m.emit (Event.convertAudio cnt)
  let chunk : Chunk := ⟨convertAudio r.1⟩
  let m := m.emit (Event.quickLoadRAW (cnt * 2))
  let m :=
    if m._sfx.length > 100 then
      let m := match m._sfx.get? (sfxBeginIdx env m._sfx) with
        | some e => m.emit (Event.freeChunk e.2)
        | none => m
      { m with _sfx := sfxEraseBegin env m._sfx }
    else m
  (chunk, { m with _sfx := sfxInsert m._sfx name chunk })

/-- The body of `playACMSound(filename)`. -/
def playACMSound (env : Env) (m : Mixer) (filename : String) : Mixer :=
  match env.acmFileType filename with
  | none => m
  | some acm =>
    let m := m.emit (Event.debug ("playing: " ++ (m.acm acm).filename))
    match sfxFind m._sfx (m.acm acm).filename with
    | some chunk => m.emit (Event.playChannel chunk)
    | none =>
      let r := loadChunk env m acm
      r.2.emit (Event.playChannel r.1)

/-- A sequence of `playACMSound` requests, first to last. -/
def playACMSounds (env : Env) (m : Mixer) (filenames : List String) : Mixer :=
  filenames.foldl (playACMSound env) m

/-- The number of decode operations (`readSamples` calls) in a log. -/
def decodes (log : List Event) : Nat :=
  log.countP (fun e => match e with
    | Event.readSamples _ _ => true
    | _ => false)

/-- The number of mono-to-stereo conversions (`SDL_ConvertAudio` calls) in a
log. -/
def converts (log : List Event) : Nat :=
  log.countP (fun e => match e with
    | Event.convertAudio _ => true
    | _ => false)

/-- A mixer with nothing cached, nothing hooked, not paused, not looping and at
full volume, over the given decoder objects; the empty log marks the start of
the observation. -/
def fresh (acm : Ptr → AcmFile) (mve : Ptr → MvePlayer) : Mixer :=
  { _sfx := [], _paused := false, _loop := false, _musicVolume := Dbl.one,
    _lastMusic := "", _format := 0, hook := none, acm := acm, mve := mve, log := [] }

end Mixer

/-! ## Sample environments

Concrete collaborators on which the properties below are evaluated. -/

/-- Modelled from the spec: the container type of `_sfx` is declared in
`Mixer.h`, which is not among the sources; the specification gives it as a
"bounded key→decoded-chunk mapping" in which "insertion order defines eviction
order (oldest inserted evicted first, independent of access recency)". So
`_sfx.begin()` designates the oldest entry, at place `0` among the entries
listed by age. -/
def oldestFirst : List (String × Chunk) → Nat := fun _ => 0

/-- The sound name made of `n` letters `a`. -/
def soundName (n : Nat) : String := String.mk (List.replicate n 'a')

/-- A resource manager that resolves every path without a question mark, to
the decoder object numbered by the length of the path; buffers are created
zeroed and mixing into a cleared buffer is left as the cleared buffer. -/
def demoEnv (sfxBegin : List (String × Chunk) → Nat) : Env :=
  { musicPath := "music/",
    acmFileType := fun s => if s.data.contains '?' then none else some s.length,
    sfxBegin := sfxBegin,
    bufferFill := fun _ => 0,
    mixAudioFormat := fun dst _ _ _ _ => dst }

/-- Decoder object `p` reports the name of `p` letters and holds three
samples. -/
def demoAcm (p : Ptr) : AcmFile := ⟨soundName p, [p + 1, p + 2, p + 3], 0⟩

/-- Every movie player holds four bytes of audio. -/
def demoMve (_ : Ptr) : MvePlayer := ⟨[5, 6, 7, 8], 0⟩

/-- The mixer as constructed over the sample decoder objects. -/
def demoMixer : Mixer := Mixer.fresh demoAcm demoMve

/-- The sample mixer after `playACMMusic("a", true)`: decoder object `7` is
hooked in music mode and looping. -/
def demoMusicLoop : Mixer := demoMixer.playACMMusic (demoEnv oldestFirst) "a" true

/-- The sample mixer after `playACMMusic("a", false)`. -/
def demoMusicOnce : Mixer := demoMixer.playACMMusic (demoEnv oldestFirst) "a" false

/-- The sample mixer after `playACMSpeech("a")`: decoder object `14`, holding
the samples `15, 16, 17`, is hooked in speech mode. -/
def demoSpeech : Mixer := demoMixer.playACMSpeech (demoEnv oldestFirst) "a"

/-- The sample mixer after `playMovieMusic` on movie player `0` followed by
`pauseMusic`. -/
def demoMoviePaused : Mixer := (demoMixer.playMovieMusic 0).pauseMusic

/-- The looping sample music after one invocation on a six-byte buffer, which
reads all three samples of decoder object `7`. -/
def demoMusicLoopEnd : Mixer :=
  (demoMusicLoop.audioTick (demoEnv oldestFirst) [0, 0, 0, 0, 0, 0] 6).1

/-- The non-looping sample music after one invocation on a six-byte buffer. -/
def demoMusicOnceEnd : Mixer :=
  (demoMusicOnce.audioTick (demoEnv oldestFirst) [0, 0, 0, 0, 0, 0] 6).1

/-- The sample mixer after one `playACMSound("a")`: the sound is cached. -/
def demoCached : Mixer := demoMixer.playACMSound (demoEnv oldestFirst) "a"

/-! ## Music volume -/

/-- C4, the claim as stated fails: after `setMusicVolume(NaN)` the stored
volume is NaN, which is not within `[0, 1]`. -/
theorem setMusicVolume_nan_escapes :
    ¬ Dbl.inUnit
      (demoMixer.setMusicVolume Dbl.nan).musicVolume := by
  decide

/-- C4, amended: for every volume `v`, `musicVolume()` after
`setMusicVolume(v)` equals `clamp(v, 0.0, 1.0)`: it is `0.0` when `v < 0.0`,
`1.0` when `v > 1.0` and `v` otherwise; it lies within `[0, 1]` whenever `v` is
not NaN. -/
theorem setMusicVolume_clamp (m : Mixer) (v : Dbl) :
    (m.setMusicVolume v).musicVolume = clamp v Dbl.zero Dbl.one
    ∧ (Dbl.lt v Dbl.zero = true → (m.setMusicVolume v).musicVolume = Dbl.zero)
    ∧ (Dbl.lt v Dbl.zero = false → Dbl.gt v Dbl.one = true →
        (m.setMusicVolume v).musicVolume = Dbl.one)
    ∧ (Dbl.lt v Dbl.zero = false → Dbl.gt v Dbl.one = false →
        (m.setMusicVolume v).musicVolume = v)
    ∧ (v ≠ Dbl.nan → Dbl.inUnit (m.setMusicVolume v).musicVolume) := by
  refine ⟨?_, ?_, ?_, ?_, ?_⟩
  · simp [Mixer.setMusicVolume, Mixer.musicVolume, clamp, Dbl.gt]
  · intro h; simp [Mixer.setMusicVolume, Mixer.musicVolume, h]
  · intro h0 h1; simp [Mixer.setMusicVolume, Mixer.musicVolume, h0, h1]
  · intro h0 h1; simp [Mixer.setMusicVolume, Mixer.musicVolume, h0, h1]
  · intro hv
    cases v with
    | nan => exact absurd rfl hv
    | negInf => simp [Mixer.setMusicVolume, Mixer.musicVolume, Dbl.lt, Dbl.zero, Dbl.inUnit, Dbl.le, Dbl.one]
    | posInf => simp [Mixer.setMusicVolume, Mixer.musicVolume, Dbl.lt, Dbl.gt, Dbl.zero, Dbl.inUnit, Dbl.le, Dbl.one]
    | fin q =>
      simp only [Mixer.setMusicVolume, Mixer.musicVolume, Dbl.lt, Dbl.gt, Dbl.zero, Dbl.one]
      by_cases h0 : q < 0
      · simp [h0, Dbl.inUnit, Dbl.le, Dbl.zero, Dbl.one]
      · by_cases h1 : 1 < q
        · simp [h0, h1, Dbl.inUnit, Dbl.le, Dbl.zero, Dbl.one]
        · simp only [h0, h1, decide_False, Bool.false_eq_true, if_false, Dbl.inUnit, Dbl.le,
            Dbl.zero, Dbl.one, decide_eq_true_eq]
          exact ⟨not_lt.mp h0, not_lt.mp h1⟩

/-- C4, an instance of the amended claim: `setMusicVolume(2.0)` stores `1.0`,
which lies within `[0, 1]`. -/
theorem setMusicVolume_clamp_witness :
    (demoMixer.setMusicVolume (Dbl.fin 2)).musicVolume
        = Dbl.one
    ∧ Dbl.inUnit
        (demoMixer.setMusicVolume (Dbl.fin 2)).musicVolume :=
  ⟨(setMusicVolume_clamp _ (Dbl.fin 2)).2.2.1 (by decide) (by decide),
   (setMusicVolume_clamp _ (Dbl.fin 2)).2.2.2.2 (by simp)⟩

/-! ## The pause gate -/

/-- While paused, one invocation of the hook in music or speech mode returns
at once: the mixer and the buffer are as they were. -/
theorem audioTick_of_paused (env : Env) (m : Mixer) (p : Ptr) (stream : List Nat) (len : Nat)
    (hp : m._paused = true)
    (hh : m.hook = some (Target.music p) ∨ m.hook = some (Target.speech p)) :
    m.audioTick env stream len = (m, stream) := by
  rcases hh with hh | hh
  · simp [Mixer.audioTick, hh, Mixer.myMusicPlayer, Mixer._musicCallback, hp]
  · simp [Mixer.audioTick, hh, Mixer.myMusicPlayer, Mixer._speechCallback, hp]

/-- While paused, any number of invocations of the hook in music or speech
mode leave the mixer and every buffer as they were. -/
theorem audioTicks_of_paused (env : Env) (m : Mixer) (p : Ptr) (streams : List (List Nat))
    (hp : m._paused = true)
    (hh : m.hook = some (Target.music p) ∨ m.hook = some (Target.speech p)) :
    m.audioTicks env streams = (m, streams) := by
  induction streams with
  | nil => rfl
  | cons stream rest ih =>
    simp [Mixer.audioTicks, audioTick_of_paused env m p stream stream.length hp hh, ih]

/-- C7: while the mixer is paused, any number of invocations of the music or
speech callback leave the whole mixer as it was; in particular the read
position of the source is unchanged, no `readSamples`, `rewind` or
`Mix_HookMusic` call is logged and the hook stays installed, whatever the
source reports as remaining. -/
theorem paused_callbacks_leave_source (env : Env) (m : Mixer) (p : Ptr)
    (streams : List (List Nat)) (hp : m._paused = true)
    (hh : m.hook = some (Target.music p) ∨ m.hook = some (Target.speech p)) :
    (m.audioTicks env streams).1 = m
    ∧ ((m.audioTicks env streams).1.acm p).pos = (m.acm p).pos
    ∧ (m.audioTicks env streams).1.log = m.log
    ∧ (m.audioTicks env streams).1.hook = m.hook := by
  rw [audioTicks_of_paused env m p streams hp hh]
  exact ⟨rfl, rfl, rfl, rfl⟩

/-- C7, an instance: the looping sample music, paused, is ticked twice; decoder
object `7` stays hooked at position `0`. -/
theorem paused_callbacks_leave_source_witness :
    demoMusicLoop.pauseMusic._paused = true
    ∧ demoMusicLoop.pauseMusic.hook = some (Target.music 7)
    ∧ (demoMusicLoop.pauseMusic.audioTicks (demoEnv oldestFirst) [[1, 2, 3, 4], [5, 6]]).1
        = demoMusicLoop.pauseMusic
    ∧ ((demoMusicLoop.pauseMusic.audioTicks (demoEnv oldestFirst) [[1, 2, 3, 4], [5, 6]]).1.acm 7).pos
        = 0 :=
  ⟨rfl, rfl,
   (paused_callbacks_leave_source (demoEnv oldestFirst) demoMusicLoop.pauseMusic 7
      [[1, 2, 3, 4], [5, 6]] rfl (Or.inl rfl)).1,
   (paused_callbacks_leave_source (demoEnv oldestFirst) demoMusicLoop.pauseMusic 7
      [[1, 2, 3, 4], [5, 6]] rfl (Or.inl rfl)).2.1⟩

/-- C8, the claim as stated fails: the paused music callback returns the
buffer `1, 2, 3, 4` as it received it, not zeroed. -/
theorem paused_output_not_zeroed :
    demoMusicLoop.pauseMusic._paused = true
    ∧ (demoMusicLoop.pauseMusic.audioTick (demoEnv oldestFirst) [1, 2, 3, 4] 4).2 = [1, 2, 3, 4]
    ∧ ¬ (∀ b ∈ (demoMusicLoop.pauseMusic.audioTick (demoEnv oldestFirst) [1, 2, 3, 4] 4).2,
          b = 0) := by
  have h := audioTick_of_paused (demoEnv oldestFirst) demoMusicLoop.pauseMusic 7 [1, 2, 3, 4] 4
    rfl (Or.inl rfl)
  rw [h]
  refine ⟨rfl, rfl, ?_⟩
  intro hz
  exact absurd (hz 1 (by simp)) (by decide)

/-- C8, amended: while the mixer is paused, every invocation of the music or
speech callback leaves the output buffer untouched: on return it holds the
bytes it held on entry, so it is all zero exactly when the caller zeroed it. -/
theorem paused_output_untouched (env : Env) (m : Mixer) (p : Ptr) (stream : List Nat)
    (len : Nat) (hp : m._paused = true)
    (hh : m.hook = some (Target.music p) ∨ m.hook = some (Target.speech p)) :
    (m.audioTick env stream len).2 = stream
    ∧ ((∀ b ∈ (m.audioTick env stream len).2, b = 0) ↔ (∀ b ∈ stream, b = 0)) := by
  rw [audioTick_of_paused env m p stream len hp hh]
  exact ⟨rfl, Iff.rfl⟩

/-- C8, an instance of the amended claim: the paused sample music leaves a
zeroed buffer zeroed. -/
theorem paused_output_untouched_witness :
    demoMusicLoop.pauseMusic._paused = true
    ∧ (demoMusicLoop.pauseMusic.audioTick (demoEnv oldestFirst) [0, 0, 0, 0] 4).2 = [0, 0, 0, 0] :=
  ⟨rfl, (paused_output_untouched (demoEnv oldestFirst) demoMusicLoop.pauseMusic 7 [0, 0, 0, 0] 4
      rfl (Or.inl rfl)).1⟩

/-- C9, the code at a paused movie hook: the first invocation calls `getAudio`
on the movie player, advances it by four bytes and writes them to the buffer;
the next one finds nothing left and detaches the hook, all while paused. -/
theorem movieCallback_runs_while_paused :
    demoMoviePaused._paused = true
    ∧ demoMoviePaused.hook = some (Target.movie 0)
    ∧ (demoMoviePaused.audioTick (demoEnv oldestFirst) [0, 0, 0, 0] 4).1.log
        = demoMoviePaused.log ++ [Event.getAudio 0 4]
    ∧ ((demoMoviePaused.audioTick (demoEnv oldestFirst) [0, 0, 0, 0] 4).1.mve 0).pos = 4
    ∧ (demoMoviePaused.audioTick (demoEnv oldestFirst) [0, 0, 0, 0] 4).2 = [5, 6, 7, 8]
    ∧ (demoMoviePaused.audioTicks (demoEnv oldestFirst) [[0, 0, 0, 0], [0, 0, 0, 0]]).1._paused
        = true
    ∧ (demoMoviePaused.audioTicks (demoEnv oldestFirst) [[0, 0, 0, 0], [0, 0, 0, 0]]).1.hook
        = none := by
  decide

/-! ## Starting music -/

/-- C10: `playACMMusic(filename, loop)` always returns. When the lookup of
`musicPath + filename` fails, the last-music name, the loop flag, the volume,
the pause flag, the sound cache and the decoder objects are as before and no
hook is installed (the only call made is `Mix_HookMusic(NULL, NULL)`). When it
yields a decoder object, `filename` is recorded as the last music, the loop
flag is `loop`, the object is rewound and it is installed as the music-mode
hook. -/
theorem playACMMusic_outcome (env : Env) (m : Mixer) (filename : String) (loop : Bool) :
    (env.acmFileType (env.musicPath ++ filename) = none →
      (m.playACMMusic env filename loop)._lastMusic = m._lastMusic
      ∧ (m.playACMMusic env filename loop)._loop = m._loop
      ∧ (m.playACMMusic env filename loop)._musicVolume = m._musicVolume
      ∧ (m.playACMMusic env filename loop)._paused = m._paused
      ∧ (m.playACMMusic env filename loop)._sfx = m._sfx
      ∧ (m.playACMMusic env filename loop).acm = m.acm
      ∧ (m.playACMMusic env filename loop).hook = none
      ∧ (m.playACMMusic env filename loop).log = m.log ++ [Event.hookMusic none])
    ∧ (∀ acm : Ptr, env.acmFileType (env.musicPath ++ filename) = some acm →
      (m.playACMMusic env filename loop)._lastMusic = filename
      ∧ (m.playACMMusic env filename loop)._loop = loop
      ∧ (m.playACMMusic env filename loop).acm acm = (m.acm acm).rewind
      ∧ ((m.playACMMusic env filename loop).acm acm).pos = 0
      ∧ (m.playACMMusic env filename loop).hook = some (Target.music acm)
      ∧ (m.playACMMusic env filename loop).log
          = m.log ++ [Event.hookMusic none, Event.rewind acm,
                      Event.hookMusic (some (Target.music acm))]) := by
  constructor
  · intro h
    simp [Mixer.playACMMusic, h, Mixer.hookMusic]
  · intro acm h
    simp [Mixer.playACMMusic, h, Mixer.hookMusic, Mixer.acmRewind, AcmFile.rewind]

/-- C10, instances: on the looping sample music the unresolvable name `?`
leaves the last music `a` and the loop flag in place and no hook installed;
the name `b` resolves to decoder object `7` and is installed. -/
theorem playACMMusic_outcome_witness :
    (demoEnv oldestFirst).acmFileType ((demoEnv oldestFirst).musicPath ++ "?") = none
    ∧ (demoMusicLoop.playACMMusic (demoEnv oldestFirst) "?" false)._lastMusic = "a"
    ∧ (demoMusicLoop.playACMMusic (demoEnv oldestFirst) "?" false)._loop = true
    ∧ (demoMusicLoop.playACMMusic (demoEnv oldestFirst) "?" false).hook = none
    ∧ (demoEnv oldestFirst).acmFileType ((demoEnv oldestFirst).musicPath ++ "b") = some 7
    ∧ (demoMusicLoop.playACMMusic (demoEnv oldestFirst) "b" false)._lastMusic = "b"
    ∧ (demoMusicLoop.playACMMusic (demoEnv oldestFirst) "b" false).hook
        = some (Target.music 7) :=
  ⟨by decide,
   ((playACMMusic_outcome (demoEnv oldestFirst) demoMusicLoop "?" false).1 (by decide)).1,
   ((playACMMusic_outcome (demoEnv oldestFirst) demoMusicLoop "?" false).1 (by decide)).2.1,
   ((playACMMusic_outcome (demoEnv oldestFirst) demoMusicLoop "?" false).1
      (by decide)).2.2.2.2.2.2.1,
   by decide,
   ((playACMMusic_outcome (demoEnv oldestFirst) demoMusicLoop "b" false).2 7 (by decide)).1,
   ((playACMMusic_outcome (demoEnv oldestFirst) demoMusicLoop "b" false).2 7
      (by decide)).2.2.2.2.1⟩

/-! ## End of stream in music mode -/

/-- C5: in music mode, not paused, with the source reporting nothing left. If
the loop flag is set the source is rewound, `readSamples` is asked for
`len / 2` samples of the rewound source, the output is cleared and the fetched
buffer is mixed into it, and the hook stays installed. If the loop flag is
clear the hook is detached, the buffer and the source are untouched and
nothing is read. -/
theorem musicCallback_end_of_stream (env : Env) (m : Mixer) (p : Ptr) (stream : List Nat)
    (len : Nat) (hh : m.hook = some (Target.music p)) (hp : m._paused = false)
    (hz : (m.acm p).samplesLeft = 0) :
    (m._loop = true →
      (m.audioTick env stream len).1.hook = some (Target.music p)
      ∧ (m.audioTick env stream len).1.log
          = m.log ++ [Event.rewind p, Event.readSamples p (len / 2), Event.memset len,
                      Event.mixAudioFormat len (Dbl.scaleToInt 128 m._musicVolume)]
      ∧ (m.audioTick env stream len).1.acm p = ((m.acm p).rewind.readSamples (len / 2)).2
      ∧ ((m.acm p).rewind.readSamples (len / 2)).1 = (m.acm p).data.take (len / 2)
      ∧ (m.audioTick env stream len).2
          = env.mixAudioFormat (memset stream 0 len)
              (fillBuffer (newBuffer env (len / 2)) ((m.acm p).data.take (len / 2)))
              m._format len (Dbl.scaleToInt 128 m._musicVolume))
    ∧ (m._loop = false →
      (m.audioTick env stream len).1.hook = none
      ∧ (m.audioTick env stream len).1.log = m.log ++ [Event.hookMusic none]
      ∧ (m.audioTick env stream len).1.acm = m.acm
      ∧ (m.audioTick env stream len).2 = stream) := by
  constructor
  · intro hl
    simp [Mixer.audioTick, hh, Mixer.myMusicPlayer, Mixer._musicCallback, hp, hz, hl,
      Mixer.musicFetch, Mixer.acmReadSamples, Mixer.acmRewind, Mixer.emit, AcmFile.rewind,
      AcmFile.readSamples]
  · intro hl
    simp [Mixer.audioTick, hh, Mixer.myMusicPlayer, Mixer._musicCallback, hp, hz, hl,
      Mixer.hookMusic]

/-- C5, instances: at the end of the three-sample source, the looping music
keeps decoder object `7` hooked and reads it again from the start (two samples
for a four-byte buffer); the non-looping music is detached and its source is
left at the end. -/
theorem musicCallback_end_of_stream_witness :
    (demoMusicLoopEnd.acm 7).samplesLeft = 0
    ∧ demoMusicLoopEnd._loop = true
    ∧ (demoMusicLoopEnd.audioTick (demoEnv oldestFirst) [9, 9, 9, 9] 4).1.hook
        = some (Target.music 7)
    ∧ (demoMusicLoopEnd.audioTick (demoEnv oldestFirst) [9, 9, 9, 9] 4).1.acm 7
        = ((demoMusicLoopEnd.acm 7).rewind.readSamples (4 / 2)).2
    ∧ (demoMusicOnceEnd.acm 7).samplesLeft = 0
    ∧ demoMusicOnceEnd._loop = false
    ∧ (demoMusicOnceEnd.audioTick (demoEnv oldestFirst) [9, 9, 9, 9] 4).1.hook = none
    ∧ (demoMusicOnceEnd.audioTick (demoEnv oldestFirst) [9, 9, 9, 9] 4).1.acm
        = demoMusicOnceEnd.acm :=
  ⟨by decide, by decide,
   ((musicCallback_end_of_stream (demoEnv oldestFirst) demoMusicLoopEnd 7 [9, 9, 9, 9] 4
      (by decide) (by decide) (by decide)).1 (by decide)).1,
   ((musicCallback_end_of_stream (demoEnv oldestFirst) demoMusicLoopEnd 7 [9, 9, 9, 9] 4
      (by decide) (by decide) (by decide)).1 (by decide)).2.2.1,
   by decide, by decide,
   ((musicCallback_end_of_stream (demoEnv oldestFirst) demoMusicOnceEnd 7 [9, 9, 9, 9] 4
      (by decide) (by decide) (by decide)).2 (by decide)).1,
   ((musicCallback_end_of_stream (demoEnv oldestFirst) demoMusicOnceEnd 7 [9, 9, 9, 9] 4
      (by decide) (by decide) (by decide)).2 (by decide)).2.2.1⟩

/-! ## Speech: mono to stereo -/

/-- Reading a byte buffer after one in-range store. -/
theorem getD_set_of_lt (l : List Nat) (i j a : Nat) (h : i < l.length) :
    (l.set i a).getD j 0 = if j = i then a else l.getD j 0 := by
  simp only [List.getD_eq_getElem?_getD, List.getElem?_set]
  by_cases hji : j = i
  · subst hji; simp [h]
  · have hij : ¬ i = j := fun e => hji e.symm
    simp [hji, hij]

/-- One more round of the speech loop. -/
theorem speechLoop_succ (tmp stream : List Nat) (n : Nat) :
    Mixer.speechLoop tmp stream (n + 1)
      = writeU16 (writeU16 (Mixer.speechLoop tmp stream n) (n * 2) (tmp.getD n 0))
          (n * 2 + 1) (tmp.getD n 0) := by
  simp [Mixer.speechLoop, List.range_succ, List.foldl_append]

/-- The speech loop keeps the length of the buffer. -/
theorem speechLoop_length (tmp stream : List Nat) (n : Nat) :
    (Mixer.speechLoop tmp stream n).length = stream.length := by
  induction n with
  | zero => simp [Mixer.speechLoop]
  | succ n ih =>
    rw [speechLoop_succ]
    simp [writeU16, ih]

/-- Byte `k` of the buffer after `n` rounds of the speech loop: below `4 * n`
a byte of the sample `tmp[k / 4]`, low byte at even offsets and high byte at
odd ones; from `4 * n` on, the byte that was there. -/
theorem speechLoop_getD (tmp stream : List Nat) (n : Nat) (hn : 4 * n ≤ stream.length)
    (k : Nat) :
    (Mixer.speechLoop tmp stream n).getD k 0
      = if k < 4 * n then
          (if k % 2 = 0 then tmp.getD (k / 4) 0 % 256 else tmp.getD (k / 4) 0 / 256 % 256)
        else stream.getD k 0 := by
  induction n with
  | zero => simp [Mixer.speechLoop]
  | succ n ih =>
    have ih := ih (by omega)
    have hlen := speechLoop_length tmp stream n
    rw [speechLoop_succ]
    simp only [writeU16]
    rw [getD_set_of_lt _ _ _ _ (by simp [hlen]; omega),
        getD_set_of_lt _ _ _ _ (by simp [hlen]; omega),
        getD_set_of_lt _ _ _ _ (by simp [hlen]; omega),
        getD_set_of_lt _ _ _ _ (by simp [hlen]; omega), ih]
    by_cases h3 : k = 2 * (n * 2 + 1) + 1
    · have e1 : k / 4 = n := by omega
      have e2 : ¬ k % 2 = 0 := by omega
      have e3 : k < 4 * (n + 1) := by omega
      rw [if_pos h3, if_pos e3, if_neg e2, e1]
    · by_cases h2 : k = 2 * (n * 2 + 1)
      · have e1 : k / 4 = n := by omega
        have e2 : k % 2 = 0 := by omega
        have e3 : k < 4 * (n + 1) := by omega
        rw [if_neg h3, if_pos h2, if_pos e3, if_pos e2, e1]
      · by_cases h1 : k = 2 * (n * 2) + 1
        · have e1 : k / 4 = n := by omega
          have e2 : ¬ k % 2 = 0 := by omega
          have e3 : k < 4 * (n + 1) := by omega
          rw [if_neg h3, if_neg h2, if_pos h1, if_pos e3, if_neg e2, e1]
        · by_cases h0 : k = 2 * (n * 2)
          · have e1 : k / 4 = n := by omega
            have e2 : k % 2 = 0 := by omega
            have e3 : k < 4 * (n + 1) := by omega
            rw [if_neg h3, if_neg h2, if_neg h1, if_pos h0, if_pos e3, if_pos e2, e1]
          · rw [if_neg h3, if_neg h2, if_neg h1, if_neg h0]
            by_cases hk : k < 4 * n
            · have e3 : k < 4 * (n + 1) := by omega
              rw [if_pos hk, if_pos e3]
            · have e3 : ¬ k < 4 * (n + 1) := by omega
              rw [if_neg hk, if_neg e3]

/-- Slot `j` of the `uint16_t` view after `n` rounds of the speech loop, for
`j` below `2 * n`: the sample `tmp[j / 2]` as a 16-bit value. -/
theorem speechLoop_readU16 (tmp stream : List Nat) (n : Nat) (hn : 4 * n ≤ stream.length)
    (j : Nat) (hj : j < 2 * n) :
    readU16 (Mixer.speechLoop tmp stream n) j = tmp.getD (j / 2) 0 % 65536 := by
  have e0 : 2 * j < 4 * n := by omega
  have e1 : 2 * j + 1 < 4 * n := by omega
  have e2 : (2 * j) % 2 = 0 := by omega
  have e3 : ¬ (2 * j + 1) % 2 = 0 := by omega
  have e4 : (2 * j) / 4 = j / 2 := by omega
  have e5 : (2 * j + 1) / 4 = j / 2 := by omega
  simp only [readU16]
  rw [speechLoop_getD tmp stream n hn, speechLoop_getD tmp stream n hn,
    if_pos e0, if_pos e1, if_pos e2, if_neg e3, e4, e5]
  omega

/-- C6, the claim as stated fails: the sample speech source has three samples
left (`15, 16, 17`) and the buffer has sixteen bytes. The invocation consumes
three samples but writes four pairs, eight slots; the pair of slots `6` and `7`
holds the stale cell `tmp[3]`, which is no consumed sample. -/
theorem speechCallback_short_read :
    demoSpeech.hook = some (Target.speech 14)
    ∧ demoSpeech._paused = false
    ∧ (demoSpeech.acm 14).samplesLeft = 3
    ∧ ((demoSpeech.acm 14).readSamples (16 / 4)).1 = [15, 16, 17]
    ∧ (List.range 8).map
        (readU16 (demoSpeech.audioTick (demoEnv oldestFirst) (List.replicate 16 9) 16).2)
        = [15, 15, 16, 16, 17, 17, 0, 0]
    ∧ ¬ (∀ i, i < 16 / 4 →
          ∃ s, ((demoSpeech.acm 14).readSamples (16 / 4)).1.get? i = some s
            ∧ readU16 (demoSpeech.audioTick (demoEnv oldestFirst) (List.replicate 16 9) 16).2
                (2 * i) = s) := by
  refine ⟨by decide, by decide, by decide, by decide, by decide, ?_⟩
  intro h
  obtain ⟨s, hs, _⟩ := h 3 (by decide)
  have hnone : ((demoSpeech.acm 14).readSamples (16 / 4)).1.get? 3 = none := by decide
  rw [hnone] at hs
  exact Option.noConfusion hs

/-- C6, amended: in speech mode, for an unpaused invocation on a buffer of at
least `len` bytes with samples remaining, let the consumed samples be those
`readSamples` returns for the request of `len / 4`. Their number is the lesser
of `len / 4` and the samples remaining. For every `i` below `len / 4` the slots
`2i` and `2i + 1` hold the same value; for every `i` below the number consumed
that value is the `i`-th consumed sample (as a 16-bit value). The buffer keeps
its length and its bytes from `4 * (len / 4)` on. When at least `len / 4`
samples remain, `L = len / 4` samples are consumed and fill exactly the `2L`
slots written. -/
theorem speechCallback_duplicates (env : Env) (m : Mixer) (p : Ptr) (stream : List Nat)
    (len : Nat) (hh : m.hook = some (Target.speech p)) (hp : m._paused = false)
    (hz : 0 < (m.acm p).samplesLeft) (hlen : len ≤ stream.length) :
    ((m.acm p).readSamples (len / 4)).1.length = min (len / 4) (m.acm p).samplesLeft
    ∧ (∀ i, i < len / 4 →
        readU16 (m.audioTick env stream len).2 (2 * i)
          = readU16 (m.audioTick env stream len).2 (2 * i + 1))
    ∧ (∀ i, i < ((m.acm p).readSamples (len / 4)).1.length →
        readU16 (m.audioTick env stream len).2 (2 * i)
          = ((m.acm p).readSamples (len / 4)).1.getD i 0 % 65536
        ∧ readU16 (m.audioTick env stream len).2 (2 * i + 1)
          = ((m.acm p).readSamples (len / 4)).1.getD i 0 % 65536)
    ∧ (m.audioTick env stream len).2.length = stream.length
    ∧ (∀ k, 4 * (len / 4) ≤ k →
        (m.audioTick env stream len).2.getD k 0 = stream.getD k 0)
    ∧ (len / 4 ≤ (m.acm p).samplesLeft →
        ((m.acm p).readSamples (len / 4)).1.length = len / 4)
    ∧ (m.audioTick env stream len).1.acm p = ((m.acm p).readSamples (len / 4)).2
    ∧ (m.audioTick env stream len).1.hook = m.hook := by
  have hz' : ¬ (m.acm p).samplesLeft ≤ 0 := by omega
  have hzn : ¬ (m.acm p).samplesLeft = 0 := by omega
  have hn : 4 * (len / 4) ≤ stream.length := by omega
  have hcount : ((m.acm p).readSamples (len / 4)).1.length
      = min (len / 4) (m.acm p).samplesLeft := by
    simp [AcmFile.readSamples, AcmFile.samplesLeft]
  have hout : (m.audioTick env stream len).2
      = Mixer.speechLoop
          (fillBuffer (newBuffer env (len / 2)) ((m.acm p).readSamples (len / 4)).1)
          stream (len / 4) := by
    simp [Mixer.audioTick, hh, Mixer.myMusicPlayer, Mixer._speechCallback, hp, hzn,
      Mixer.acmReadSamples]
  refine ⟨hcount, ?_, ?_, ?_, ?_, ?_, ?_, ?_⟩
  · intro i hi
    rw [hout, speechLoop_readU16 _ _ _ hn _ (by omega),
      speechLoop_readU16 _ _ _ hn _ (by omega)]
    have e1 : 2 * i / 2 = i := by omega
    have e2 : (2 * i + 1) / 2 = i := by omega
    rw [e1, e2]
  · intro i hi
    have hi4 : i < len / 4 := by
      rw [hcount] at hi
      exact lt_of_lt_of_le hi (Nat.min_le_left _ _)
    have e1 : 2 * i / 2 = i := by omega
    have e2 : (2 * i + 1) / 2 = i := by omega
    have hg : (fillBuffer (newBuffer env (len / 2)) ((m.acm p).readSamples (len / 4)).1).getD i 0
        = ((m.acm p).readSamples (len / 4)).1.getD i 0 := by
      simp only [fillBuffer, List.getD_eq_getElem?_getD]
      rw [List.getElem?_append_left hi]
    rw [hout, speechLoop_readU16 _ _ _ hn _ (by omega),
      speechLoop_readU16 _ _ _ hn _ (by omega), e1, e2, hg]
    exact ⟨rfl, rfl⟩
  · rw [hout, speechLoop_length]
  · intro k hk
    have hk' : ¬ k < 4 * (len / 4) := by omega
    rw [hout, speechLoop_getD _ _ _ hn, if_neg hk']
  · intro hle
    rw [hcount]
    exact Nat.min_eq_left hle
  · simp [Mixer.audioTick, hh, Mixer.myMusicPlayer, Mixer._speechCallback, hp, hzn,
      Mixer.acmReadSamples]
  · simp [Mixer.audioTick, hh, Mixer.myMusicPlayer, Mixer._speechCallback, hp, hzn,
      Mixer.acmReadSamples]

/-- C6, an instance of the amended claim: the sample speech source on an
eight-byte buffer has two samples consumed, `15` and `16`, which fill the four
slots as `15, 15, 16, 16`. -/
theorem speechCallback_duplicates_witness :
    demoSpeech.hook = some (Target.speech 14)
    ∧ demoSpeech._paused = false
    ∧ 0 < (demoSpeech.acm 14).samplesLeft
    ∧ ((demoSpeech.acm 14).readSamples (8 / 4)).1.length = 8 / 4
    ∧ readU16 (demoSpeech.audioTick (demoEnv oldestFirst) (List.replicate 8 9) 8).2 (2 * 1)
        = ((demoSpeech.acm 14).readSamples (8 / 4)).1.getD 1 0 % 65536
    ∧ readU16 (demoSpeech.audioTick (demoEnv oldestFirst) (List.replicate 8 9) 8).2 (2 * 1)
        = readU16 (demoSpeech.audioTick (demoEnv oldestFirst) (List.replicate 8 9) 8).2
            (2 * 1 + 1) :=
  ⟨by decide, by decide, by decide,
   (speechCallback_duplicates (demoEnv oldestFirst) demoSpeech 14 (List.replicate 8 9) 8
      (by decide) (by decide) (by decide) (by decide)).2.2.2.2.2.1 (by decide),
   ((speechCallback_duplicates (demoEnv oldestFirst) demoSpeech 14 (List.replicate 8 9) 8
      (by decide) (by decide) (by decide) (by decide)).2.2.1 1 (by decide)).1,
   (speechCallback_duplicates (demoEnv oldestFirst) demoSpeech 14 (List.replicate 8 9) 8
      (by decide) (by decide) (by decide) (by decide)).2.1 1 (by decide)⟩

/-! ## The sound-effect cache -/

/-- A key is not found exactly when no entry carries it. -/
theorem sfxFind_eq_none_iff (sfx : List (String × Chunk)) (key : String) :
    sfxFind sfx key = none ↔ sfx.any (fun e => e.1 == key) = false := by
  induction sfx with
  | nil => simp [sfxFind]
  | cons e rest ih =>
    simp only [sfxFind, List.find?_cons, List.any_cons] at ih ⊢
    by_cases h : (e.1 == key) = true
    · simp [h]
    · have hf : (e.1 == key) = false := by simp at h ⊢; exact h
      simp [hf, ih]

/-- Erasing an entry does not make an absent key present. -/
theorem sfxFind_eraseIdx_none (sfx : List (String × Chunk)) (key : String) (i : Nat)
    (h : sfxFind sfx key = none) : sfxFind (sfx.eraseIdx i) key = none := by
  simp only [sfxFind, Option.map_eq_none', List.find?_eq_none] at h ⊢
  intro x hx
  exact h x (List.mem_of_mem_eraseIdx hx)

/-- Inserting under an absent key appends the entry. -/
theorem sfxInsert_of_none (sfx : List (String × Chunk)) (key : String) (chunk : Chunk)
    (h : sfxFind sfx key = none) : sfxInsert sfx key chunk = sfx ++ [(key, chunk)] := by
  have h' := (sfxFind_eq_none_iff sfx key).mp h
  simp [sfxInsert, h']

/-- An entry appended under an absent key is the one found under that key. -/
theorem sfxFind_append_self (sfx : List (String × Chunk)) (key : String) (chunk : Chunk)
    (h : sfxFind sfx key = none) : sfxFind (sfx ++ [(key, chunk)]) key = some chunk := by
  simp only [sfxFind, Option.map_eq_none', List.find?_eq_none] at h
  simp only [sfxFind, List.find?_append]
  have hn : List.find? (fun e => e.1 == key) sfx = none := List.find?_eq_none.mpr h
  simp [hn]

/-- The place of `_sfx.begin()` is the place of an entry when there is one. -/
theorem sfxBeginIdx_lt (env : Env) (sfx : List (String × Chunk)) (h : 0 < sfx.length) :
    sfxBeginIdx env sfx < sfx.length :=
  Nat.mod_lt _ h

/-- The chunk made by `loadChunk`: the whole of what `readSamples` returns,
converted to stereo. -/
theorem loadChunk_chunk (env : Env) (m : Mixer) (p : Ptr) :
    (m.loadChunk env p).1 = ⟨convertAudio ((m.acm p).readSamples (m.acm p).samples).1⟩ := rfl

/-- The cache after `loadChunk`: `_sfx.begin()` erased when more than 100
entries were held, then the new chunk inserted under the canonical name. -/
theorem loadChunk_sfx (env : Env) (m : Mixer) (p : Ptr) :
    (m.loadChunk env p).2._sfx
      = sfxInsert (if m._sfx.length > 100 then sfxEraseBegin env m._sfx else m._sfx)
          (m.acm p).filename ⟨convertAudio ((m.acm p).readSamples (m.acm p).samples).1⟩ := by
  unfold Mixer.loadChunk
  simp only [Mixer.acmReadSamples, Mixer.emit]
  split
  · split <;> rfl
  · rfl

/-- The decoder objects after `loadChunk`: only the one decoded has moved. -/
theorem loadChunk_acm (env : Env) (m : Mixer) (p : Ptr) :
    (m.loadChunk env p).2.acm
      = Function.update m.acm p ((m.acm p).readSamples (m.acm p).samples).2 := by
  unfold Mixer.loadChunk
  simp only [Mixer.acmReadSamples, Mixer.emit]
  split
  · split <;> rfl
  · rfl

/-- The members other than the cache are not touched by `loadChunk`. -/
theorem loadChunk_frame (env : Env) (m : Mixer) (p : Ptr) :
    (m.loadChunk env p).2.hook = m.hook ∧ (m.loadChunk env p).2._paused = m._paused
    ∧ (m.loadChunk env p).2._loop = m._loop
    ∧ (m.loadChunk env p).2._musicVolume = m._musicVolume
    ∧ (m.loadChunk env p).2._lastMusic = m._lastMusic := by
  unfold Mixer.loadChunk
  simp only [Mixer.acmReadSamples, Mixer.emit]
  split
  · split <;> exact ⟨rfl, rfl, rfl, rfl, rfl⟩
  · exact ⟨rfl, rfl, rfl, rfl, rfl⟩

/-- Counting decodes: one more event at the end of a log. -/
theorem decodes_append (l₁ l₂ : List Event) :
    Mixer.decodes (l₁ ++ l₂) = Mixer.decodes l₁ + Mixer.decodes l₂ := by
  simp [Mixer.decodes, List.countP_append]

/-- Counting conversions: one more event at the end of a log. -/
theorem converts_append (l₁ l₂ : List Event) :
    Mixer.converts (l₁ ++ l₂) = Mixer.converts l₁ + Mixer.converts l₂ := by
  simp [Mixer.converts, List.countP_append]

/-- The function `loadChunk` decodes once and converts once. -/
theorem loadChunk_counts (env : Env) (m : Mixer) (p : Ptr) :
    Mixer.decodes (m.loadChunk env p).2.log = Mixer.decodes m.log + 1
    ∧ Mixer.converts (m.loadChunk env p).2.log = Mixer.converts m.log + 1 := by
  unfold Mixer.loadChunk
  simp only [Mixer.acmReadSamples, Mixer.emit]
  split
  · split <;>
      simp only [decodes_append, converts_append] <;>
      exact ⟨rfl, rfl⟩
  · simp only [decodes_append, converts_append]
    exact ⟨rfl, rfl⟩

/-- A request that found no chunk runs `loadChunk` and plays the chunk made. -/
theorem playACMSound_miss (env : Env) (m : Mixer) (filename : String) (p : Ptr)
    (hres : env.acmFileType filename = some p)
    (hmiss : sfxFind m._sfx (m.acm p).filename = none) :
    m.playACMSound env filename
      = (((m.emit (Event.debug ("playing: " ++ (m.acm p).filename))).loadChunk env p).2).emit
          (Event.playChannel
            ((m.emit (Event.debug ("playing: " ++ (m.acm p).filename))).loadChunk env p).1) := by
  have hmiss' : sfxFind (m.emit (Event.debug ("playing: " ++ (m.acm p).filename)))._sfx
      ((m.emit (Event.debug ("playing: " ++ (m.acm p).filename))).acm p).filename = none := hmiss
  simp only [Mixer.playACMSound, hres]
  rw [hmiss']

/-- A request that found a chunk plays it and changes nothing but the log. -/
theorem playACMSound_hit (env : Env) (m : Mixer) (filename : String) (p : Ptr) (chunk : Chunk)
    (hres : env.acmFileType filename = some p)
    (hhit : sfxFind m._sfx (m.acm p).filename = some chunk) :
    m.playACMSound env filename
      = { m with log := m.log ++ [Event.debug ("playing: " ++ (m.acm p).filename),
                                  Event.playChannel chunk] } := by
  have hhit' : sfxFind (m.emit (Event.debug ("playing: " ++ (m.acm p).filename)))._sfx
      ((m.emit (Event.debug ("playing: " ++ (m.acm p).filename))).acm p).filename
        = some chunk := hhit
  simp only [Mixer.playACMSound, hres]
  rw [hhit']
  simp [Mixer.emit]

/-- The cache after a request that found no chunk. -/
theorem playACMSound_miss_sfx (env : Env) (m : Mixer) (filename : String) (p : Ptr)
    (hres : env.acmFileType filename = some p)
    (hmiss : sfxFind m._sfx (m.acm p).filename = none) :
    (m.playACMSound env filename)._sfx
      = (if m._sfx.length > 100 then sfxEraseBegin env m._sfx else m._sfx)
          ++ [((m.acm p).filename,
               (⟨convertAudio ((m.acm p).readSamples (m.acm p).samples).1⟩ : Chunk))] := by
  rw [playACMSound_miss env m filename p hres hmiss]
  show ((m.emit (Event.debug ("playing: " ++ (m.acm p).filename))).loadChunk env p).2._sfx = _
  rw [loadChunk_sfx]
  show sfxInsert (if m._sfx.length > 100 then sfxEraseBegin env m._sfx else m._sfx)
      (m.acm p).filename ⟨convertAudio ((m.acm p).readSamples (m.acm p).samples).1⟩ = _
  apply sfxInsert_of_none
  split
  · exact sfxFind_eraseIdx_none _ _ _ hmiss
  · exact hmiss

/-- A request that found no chunk decodes once and converts once, ends by
playing the chunk it made, and leaves the file its canonical name. -/
theorem playACMSound_miss_log (env : Env) (m : Mixer) (filename : String) (p : Ptr)
    (hres : env.acmFileType filename = some p)
    (hmiss : sfxFind m._sfx (m.acm p).filename = none) :
    Mixer.decodes (m.playACMSound env filename).log = Mixer.decodes m.log + 1
    ∧ Mixer.converts (m.playACMSound env filename).log = Mixer.converts m.log + 1
    ∧ (m.playACMSound env filename).log.getLast?
        = some (Event.playChannel ⟨convertAudio ((m.acm p).readSamples (m.acm p).samples).1⟩)
    ∧ ((m.playACMSound env filename).acm p).filename = (m.acm p).filename := by
  rw [playACMSound_miss env m filename p hres hmiss]
  have hc := loadChunk_counts env (m.emit (Event.debug ("playing: " ++ (m.acm p).filename))) p
  refine ⟨?_, ?_, ?_, ?_⟩
  · simp only [Mixer.emit, decodes_append] at hc ⊢
    rw [hc.1]
    rfl
  · simp only [Mixer.emit, converts_append] at hc ⊢
    rw [hc.2]
    rfl
  · simp only [Mixer.emit, List.getLast?_append, List.getLast?_singleton, loadChunk_chunk]
    rfl
  · show ((((m.emit (Event.debug ("playing: " ++ (m.acm p).filename))).loadChunk env p).2).acm
      p).filename = _
    rw [loadChunk_acm]
    simp [Mixer.emit, AcmFile.readSamples]

/-- One request keeps a cache of at most 101 entries at most 101 entries. -/
theorem playACMSound_sfx_le (env : Env) (m : Mixer) (filename : String)
    (h : m._sfx.length ≤ 101) : (m.playACMSound env filename)._sfx.length ≤ 101 := by
  cases hres : env.acmFileType filename with
  | none => simpa [Mixer.playACMSound, hres] using h
  | some p =>
    cases hfind : sfxFind m._sfx (m.acm p).filename with
    | some chunk =>
      rw [playACMSound_hit env m filename p chunk hres hfind]
      exact h
    | none =>
      rw [playACMSound_miss_sfx env m filename p hres hfind]
      by_cases hfull : m._sfx.length > 100
      · have hi := sfxBeginIdx_lt env m._sfx (by omega)
        rw [if_pos hfull, List.length_append, sfxEraseBegin, List.length_eraseIdx, if_pos hi]
        simp only [List.length_singleton]
        omega
      · rw [if_neg hfull, List.length_append]
        simp only [List.length_singleton]
        omega

/-- Whatever the requests and collaborators, a cache that starts with at most
101 entries never holds more than 101. -/
theorem playACMSounds_sfx_le (env : Env) (filenames : List String) (m : Mixer)
    (h : m._sfx.length ≤ 101) : (m.playACMSounds env filenames)._sfx.length ≤ 101 := by
  induction filenames generalizing m with
  | nil => exact h
  | cons f rest ih =>
    simp only [Mixer.playACMSounds, List.foldl_cons] at ih ⊢
    exact ih _ (playACMSound_sfx_le env m f h)

/-- After any resolving request the cache holds a chunk under the canonical
name of the file, and that chunk is the one the request played last. -/
theorem playACMSound_caches (env : Env) (m : Mixer) (filename : String) (p : Ptr)
    (hres : env.acmFileType filename = some p) :
    ∃ chunk, sfxFind (m.playACMSound env filename)._sfx
          ((m.playACMSound env filename).acm p).filename = some chunk
      ∧ ((m.playACMSound env filename).acm p).filename = (m.acm p).filename
      ∧ (m.playACMSound env filename).log.getLast? = some (Event.playChannel chunk) := by
  cases hfind : sfxFind m._sfx (m.acm p).filename with
  | some chunk =>
    rw [playACMSound_hit env m filename p chunk hres hfind]
    refine ⟨chunk, hfind, rfl, ?_⟩
    show (m.log ++ [Event.debug ("playing: " ++ (m.acm p).filename),
      Event.playChannel chunk]).getLast? = _
    simp [List.getLast?_append]
  | none =>
    have hlog := playACMSound_miss_log env m filename p hres hfind
    have hsfx := playACMSound_miss_sfx env m filename p hres hfind
    refine ⟨⟨convertAudio ((m.acm p).readSamples (m.acm p).samples).1⟩, ?_, hlog.2.2.2,
      hlog.2.2.1⟩
    rw [hlog.2.2.2, hsfx]
    apply sfxFind_append_self
    split
    · exact sfxFind_eraseIdx_none _ _ _ hfind
    · exact hfind

/-- C3, amended: for every cache state and every filename that resolves, the
second of two successive `playACMSound` calls finds a chunk under the
canonical name, the one the first call played, plays it, decodes and converts
nothing and leaves the cache unchanged. The two calls together perform exactly
one decode and one conversion when the name was not cached before the first
call, and none when it already was. -/
theorem playACMSound_twice (env : Env) (m : Mixer) (filename : String) (p : Ptr)
    (hres : env.acmFileType filename = some p) :
    (∃ chunk, sfxFind (m.playACMSound env filename)._sfx (m.acm p).filename = some chunk
      ∧ (m.playACMSound env filename).log.getLast? = some (Event.playChannel chunk)
      ∧ ((m.playACMSound env filename).playACMSound env filename).log
          = (m.playACMSound env filename).log
              ++ [Event.debug ("playing: " ++ (m.acm p).filename), Event.playChannel chunk])
    ∧ ((m.playACMSound env filename).playACMSound env filename)._sfx
        = (m.playACMSound env filename)._sfx
    ∧ Mixer.decodes ((m.playACMSound env filename).playACMSound env filename).log
        = Mixer.decodes (m.playACMSound env filename).log
    ∧ Mixer.converts ((m.playACMSound env filename).playACMSound env filename).log
        = Mixer.converts (m.playACMSound env filename).log
    ∧ (sfxFind m._sfx (m.acm p).filename = none →
        Mixer.decodes ((m.playACMSound env filename).playACMSound env filename).log
          = Mixer.decodes m.log + 1
        ∧ Mixer.converts ((m.playACMSound env filename).playACMSound env filename).log
          = Mixer.converts m.log + 1)
    ∧ (∀ c, sfxFind m._sfx (m.acm p).filename = some c →
        Mixer.decodes ((m.playACMSound env filename).playACMSound env filename).log
          = Mixer.decodes m.log
        ∧ Mixer.converts ((m.playACMSound env filename).playACMSound env filename).log
          = Mixer.converts m.log) := by
  obtain ⟨chunk, hfound, hname, hlast⟩ := playACMSound_caches env m filename p hres
  have hsecond := playACMSound_hit env (m.playACMSound env filename) filename p chunk hres hfound
  have hd : Mixer.decodes ((m.playACMSound env filename).playACMSound env filename).log
      = Mixer.decodes (m.playACMSound env filename).log := by
    rw [hsecond]
    show Mixer.decodes ((m.playACMSound env filename).log ++ _) = _
    rw [decodes_append]
    rfl
  have hc : Mixer.converts ((m.playACMSound env filename).playACMSound env filename).log
      = Mixer.converts (m.playACMSound env filename).log := by
    rw [hsecond]
    show Mixer.converts ((m.playACMSound env filename).log ++ _) = _
    rw [converts_append]
    rfl
  refine ⟨⟨chunk, ?_, hlast, ?_⟩, ?_, hd, hc, ?_, ?_⟩
  · rw [← hname]; exact hfound
  · rw [hsecond, hname]
  · rw [hsecond]
  · intro hmiss
    have hlog := playACMSound_miss_log env m filename p hres hmiss
    rw [hd, hc]
    exact ⟨hlog.1, hlog.2.1⟩
  · intro c hhit
    rw [hd, hc, playACMSound_hit env m filename p c hres hhit]
    constructor
    · show Mixer.decodes (m.log ++ _) = _
      rw [decodes_append]
      rfl
    · show Mixer.converts (m.log ++ _) = _
      rw [converts_append]
      rfl

/-! ## Eviction order -/

set_option maxRecDepth 100000

/-- C1, the code on 101 requests for distinct sounds, all resolving, from the
empty cache: the 101st request finds `_sfx.size()` equal to 100, which is not
`> 100`, so nothing is erased and the cache holds 101 entries. -/
theorem sfx_holds_101_entries :
    demoMixer._sfx = []
    ∧ ((List.range 101).map soundName).Nodup
    ∧ (∀ f ∈ (List.range 101).map soundName, ((demoEnv oldestFirst).acmFileType f).isSome = true)
    ∧ (demoMixer.playACMSounds (demoEnv oldestFirst)
          ((List.range 100).map soundName))._sfx.length = 100
    ∧ (demoMixer.playACMSounds (demoEnv oldestFirst)
          ((List.range 101).map soundName))._sfx.length = 101 := by
  decide

/-- C3, the claim as stated fails on a cache that already holds the sound: two
successive requests for `a` on that cache decode nothing at all, not once. -/
theorem cached_sound_decodes_nothing :
    (demoEnv oldestFirst).acmFileType "a" = some 1
    ∧ (sfxFind demoCached._sfx (demoCached.acm 1).filename).isSome = true
    ∧ Mixer.decodes
        ((demoCached.playACMSound (demoEnv oldestFirst) "a").playACMSound
          (demoEnv oldestFirst) "a").log
        = Mixer.decodes demoCached.log
    ∧ ¬ (Mixer.decodes
        ((demoCached.playACMSound (demoEnv oldestFirst) "a").playACMSound
          (demoEnv oldestFirst) "a").log
        = Mixer.decodes demoCached.log + 1) := by
  decide

/-- C3, instances of the amended claim: on the empty cache two successive
requests for `a` decode once and convert once; on the cache that holds `a`
they decode nothing; in both the second request leaves the cache as it is. -/
theorem playACMSound_twice_witness :
    (demoEnv oldestFirst).acmFileType "a" = some 1
    ∧ sfxFind demoMixer._sfx (demoMixer.acm 1).filename = none
    ∧ Mixer.decodes
        ((demoMixer.playACMSound (demoEnv oldestFirst) "a").playACMSound
          (demoEnv oldestFirst) "a").log
        = Mixer.decodes demoMixer.log + 1
    ∧ ((demoMixer.playACMSound (demoEnv oldestFirst) "a").playACMSound
          (demoEnv oldestFirst) "a")._sfx
        = (demoMixer.playACMSound (demoEnv oldestFirst) "a")._sfx
    ∧ Mixer.decodes
        ((demoCached.playACMSound (demoEnv oldestFirst) "a").playACMSound
          (demoEnv oldestFirst) "a").log
        = Mixer.decodes demoCached.log :=
  ⟨by decide, by decide,
   ((playACMSound_twice (demoEnv oldestFirst) demoMixer "a" 1 (by decide)).2.2.2.2.1
      (by decide)).1,
   (playACMSound_twice (demoEnv oldestFirst) demoMixer "a" 1 (by decide)).2.1,
   ((playACMSound_twice (demoEnv oldestFirst) demoCached "a" 1 (by decide)).2.2.2.2.2
      ⟨convertAudio [2, 3, 4]⟩ (by decide)).1⟩

end Audio
end Falltergeist
